import Mathlib

/-!
Verification development for the heos-tui device-control core.

Rust strings are embedded as `List Char` (`Str`); machine integers
(`i64`, `i32`) as `Int`; `u8` as `Nat` with explicit range checks where
the source performs them.  Fallible operations return `Option`.
Hash maps (`std::collections::HashMap`) are embedded as ordered
association lists with insert-overwrites semantics, which is
extensionally equal for the lookups the source performs.
-/

namespace HeosTui

abbrev Str := List Char

/-- Embedding of Rust `str::contains` (substring containment) over
character lists: some position of `hay` starts with `needle`. -/
def listContains : Str → Str → Bool
  | hay@([]), needle => needle.isPrefixOf hay
  | hay@(_ :: t), needle => needle.isPrefixOf hay || listContains t needle

/-- Split at the first occurrence of `c` (Rust `str::split_once`):
`none` when `c` does not occur. -/
def splitOnceChar (c : Char) : Str → Option (Str × Str)
  | [] => none
  | x :: t =>
    if x = c then some ([], t)
    else (splitOnceChar c t).map (fun p => (x :: p.1, p.2))

/-- Full split on `c` (Rust `str::split`): `"" ↦ [""]`, keeps empty
chunks. -/
def splitOnChar (c : Char) : Str → List Str
  | [] => [[]]
  | x :: t =>
    if x = c then [] :: splitOnChar c t
    else
      match splitOnChar c t with
      | [] => [[x]]
      | h :: r => (x :: h) :: r

/-- ASCII-level embedding of Rust `str::to_lowercase` (all characters
relevant to this protocol are ASCII). -/
def lowerStr (s : Str) : Str := s.map Char.toLower

/-- Embedding of Rust `u8::from_str` as used by `"...".parse::<u8>()`:
an optional leading `'+'`, then one or more ASCII digits, and the value
must fit in `0..=255`. -/
def parseU8 (cs : Str) : Option Nat :=
  let ds := match cs with
    | '+' :: rest => rest
    | _ => cs
  if ds.isEmpty then none
  else if ds.all Char.isDigit then
    let n := ds.foldl (fun a c => a * 10 + (c.toNat - 48)) 0
    if n ≤ 255 then some n else none
  else none

/-- Embedding of Rust `i64::from_str` as used by `s.parse::<i64>()` for
`pid` fields: optional sign, one or more ASCII digits (no 64-bit
overflow modelling is needed at the magnitudes the claims touch). -/
def parseI64 (cs : Str) : Option Int :=
  let (neg, ds) := match cs with
    | '+' :: rest => (false, rest)
    | '-' :: rest => (true, rest)
    | _ => (false, cs)
  if ds.isEmpty then none
  else if ds.all Char.isDigit then
    let n : Nat := ds.foldl (fun a c => a * 10 + (c.toNat - 48)) 0
    some (if neg then -(n : Int) else (n : Int))
  else none

/-- Rust `str::trim` (whitespace stripped from both ends). -/
def trimStr (s : Str) : Str :=
  ((s.dropWhile Char.isWhitespace).reverse.dropWhile Char.isWhitespace).reverse

-- ==================== src/heos/types.rs ====================

/-- `Player` record decoded from a `get_players` payload. -/
structure Player where
  pid : Int
  name : Str
  model : Str
  version : Str
  ip : Str
  network : Str
  lineout : Int
  serial : Str
deriving DecidableEq, Repr

/-- `NowPlayingMedia` record; every field carries `#[serde(default)]`. -/
structure NowPlayingMedia where
  song : Str
  album : Str
  artist : Str
  image_url : Str
  mid : Str
  qid : Int
  sid : Int
  station : Str
  media_type : Str
deriving DecidableEq, Repr

def NowPlayingMedia.default : NowPlayingMedia :=
  ⟨[], [], [], [], [], 0, 0, [], []⟩

inductive PlayState where
  | unknown
  | play
  | pause
  | stop
deriving DecidableEq, Repr

def PlayState.fromStr (s : Str) : PlayState :=
  if s = "play".data then .play
  else if s = "pause".data then .pause
  else if s = "stop".data then .stop
  else .unknown

inductive MuteState where
  | off
  | on
deriving DecidableEq, Repr

def MuteState.fromStr (s : Str) : MuteState :=
  if s = "on".data then .on else .off

inductive RepeatMode where
  | off
  | onOne
  | onAll
deriving DecidableEq, Repr

def RepeatMode.fromStr (s : Str) : RepeatMode :=
  if s = "on_one".data then .onOne
  else if s = "on_all".data then .onAll
  else .off

inductive ShuffleMode where
  | off
  | on
deriving DecidableEq, Repr

def ShuffleMode.fromStr (s : Str) : ShuffleMode :=
  if s = "on".data then .on else .off

structure QueueItem where
  qid : Int
  song : Str
  album : Str
  artist : Str
  image_url : Str
  mid : Str
deriving DecidableEq, Repr

structure MusicSource where
  sid : Int
  name : Str
  source_type : Str
  image_url : Str
  available : Str
  service_username : Str
deriving DecidableEq, Repr

structure BrowseItem where
  container : Str
  cid : Str
  mid : Str
  name : Str
  item_type : Str
  image_url : Str
  playable : Str
deriving DecidableEq, Repr

/-- `PlayerState` (unified player state); `Default` derive of the
source gives `player = None`, empty metadata, `Unknown` play state,
volume 0, everything off.  The source field `repeat` is a reserved
word in Lean and is embedded as `repeat_mode`. -/
structure PlayerState where
  player : Option Player
  now_playing : NowPlayingMedia
  play_state : PlayState
  volume : Nat
  mute : MuteState
  repeat_mode : RepeatMode
  shuffle : ShuffleMode
deriving DecidableEq, Repr

def PlayerState.default : PlayerState :=
  ⟨none, NowPlayingMedia.default, .unknown, 0, .off, .off, .off⟩

-- ==================== src/heos/protocol.rs ====================

/-- A parsed `serde_json::Value`, which is what a response's `payload`
and `options` fields hold after the envelope parse. -/
inductive Json where
  | null
  | bool (b : Bool)
  | num (n : Int)
  | str (s : Str)
  | arr (xs : List Json)
  | obj (fields : List (Str × Json))

structure HeosHeader where
  command : Str
  result : Option Str
  message : Str
deriving DecidableEq, Repr

structure HeosResponse where
  heos : HeosHeader
  payload : Json
  options : Json

/-- `HashMap::insert` semantics on an ordered association list:
overwrite an existing key in place, otherwise append. -/
def insertKV (m : List (Str × Str)) (k v : Str) : List (Str × Str) :=
  if m.any (fun p => p.1 = k) then
    m.map (fun p => if p.1 = k then (k, v) else p)
  else m ++ [(k, v)]

/-- `HashMap::get` on the association-list embedding. -/
def mapGet (m : List (Str × Str)) (k : Str) : Option Str :=
  (m.find? (fun p => p.1 = k)).map (fun p => p.2)

/-- `parse_message_string`: split the free-form message on `'&'`,
keep the chunks that contain `'='`, split each at its first `'='`. -/
def parseMessageString (message : Str) : List (Str × Str) :=
  if message.isEmpty then []
  else
    (splitOnChar '&' message).foldl
      (fun m pair =>
        match splitOnceChar '=' pair with
        | some (k, v) => insertKV m k v
        | none => m)
      []

def HeosResponse.isSuccess (r : HeosResponse) : Bool :=
  r.heos.result = some "success".data

def HeosResponse.isEvent (r : HeosResponse) : Bool :=
  r.heos.result.isNone

def HeosResponse.parseMessage (r : HeosResponse) : List (Str × Str) :=
  parseMessageString r.heos.message

structure HeosCommand where
  group : Str
  command : Str
  params : List (Str × Str)
deriving DecidableEq, Repr

/-- `Vec::join("&")` over the `k=v` renderings of the parameter list. -/
def joinPairs : List (Str × Str) → Str
  | [] => []
  | [(k, v)] => k ++ '=' :: v
  | (k, v) :: rest => k ++ '=' :: v ++ '&' :: joinPairs rest

/-- `HeosCommand::to_string`: `heos://<group>/<command>`, then
`?k1=v1&k2=v2...` when parameters exist, then CRLF. -/
def HeosCommand.toLine (c : HeosCommand) : Str :=
  "heos://".data ++ c.group ++ '/' :: c.command
    ++ (if c.params.isEmpty then [] else '?' :: joinPairs c.params)
    ++ "\r\n".data

-- ==================== src/heos/avr.rs ====================

/-- Events from the AVR control protocol (Codec B). -/
inductive AvrEvent where
  | connected
  | disconnected
  | masterVolume (vol : Nat)
  | mute (m : Bool)
  | power (isOn : Bool)
  | surroundMode (mode : Str)
  | inputSource (input : Str)
  | error (msg : Str)
  | response (raw : Str)
deriving DecidableEq, Repr

/-- `AvrClient::handle_response` on an already-trimmed line: classify
by leading prefix and emit at most one event.  `none` embeds the case
where the source sends nothing on the channel. -/
def avrHandleResponse (r : Str) : Option AvrEvent :=
  if "MV".data.isPrefixOf r ∧ ¬ "MVMAX".data.isPrefixOf r then
    let volStr := r.drop 2
    match parseU8 volStr with
    | some vol => some (.masterVolume vol)
    | none =>
      if volStr.length = 3 then
        match parseU8 (volStr.take 2) with
        | some vol => some (.masterVolume vol)
        | none => none
      else none
  else if "MU".data.isPrefixOf r then
    if r.drop 2 = "ON".data then some (.mute true)
    else if r.drop 2 = "OFF".data then some (.mute false)
    else none
  else if "PW".data.isPrefixOf r then
    if r.drop 2 = "ON".data then some (.power true)
    else if r.drop 2 = "STANDBY".data ∨ r.drop 2 = "OFF".data then
      some (.power false)
    else none
  else if "SI".data.isPrefixOf r then some (.inputSource (r.drop 2))
  else if "MS".data.isPrefixOf r then some (.surroundMode (r.drop 2))
  else some (.response r)

-- ==================== serde payload deserialization ====================

def Json.getField (j : Json) (k : Str) : Option Json :=
  match j with
  | .obj fs => (fs.find? (fun p => p.1 = k)).map (fun p => p.2)
  | _ => none

def Json.asStr : Json → Option Str
  | .str s => some s
  | _ => none

def Json.asInt : Json → Option Int
  | .num n => some n
  | _ => none

/-- A required string field of a serde struct. -/
def reqStr (j : Json) (k : Str) : Option Str := (j.getField k).bind Json.asStr

/-- A required integer field of a serde struct. -/
def reqInt (j : Json) (k : Str) : Option Int := (j.getField k).bind Json.asInt

/-- A `#[serde(default)]` string field: missing means `""`, present
with the wrong type is still an error. -/
def optStr (j : Json) (k : Str) : Option Str :=
  match j.getField k with
  | none => some []
  | some v => v.asStr

/-- A `#[serde(default)]` integer field. -/
def optInt (j : Json) (k : Str) : Option Int :=
  match j.getField k with
  | none => some 0
  | some v => v.asInt

def decodePlayer (j : Json) : Option Player :=
  match j with
  | .obj _ => do
    let pid ← reqInt j "pid".data
    let name ← reqStr j "name".data
    let model ← reqStr j "model".data
    let version ← optStr j "version".data
    let ip ← optStr j "ip".data
    let network ← optStr j "network".data
    let lineout ← optInt j "lineout".data
    let serial ← optStr j "serial".data
    pure ⟨pid, name, model, version, ip, network, lineout, serial⟩
  | _ => none

def decodeNowPlayingMedia (j : Json) : Option NowPlayingMedia :=
  match j with
  | .obj _ => do
    let song ← optStr j "song".data
    let album ← optStr j "album".data
    let artist ← optStr j "artist".data
    let image_url ← optStr j "image_url".data
    let mid ← optStr j "mid".data
    let qid ← optInt j "qid".data
    let sid ← optInt j "sid".data
    let station ← optStr j "station".data
    let media_type ← optStr j "type".data
    pure ⟨song, album, artist, image_url, mid, qid, sid, station, media_type⟩
  | _ => none

def decodeQueueItem (j : Json) : Option QueueItem :=
  match j with
  | .obj _ => do
    let qid ← reqInt j "qid".data
    let song ← reqStr j "song".data
    let album ← optStr j "album".data
    let artist ← optStr j "artist".data
    let image_url ← optStr j "image_url".data
    let mid ← optStr j "mid".data
    pure ⟨qid, song, album, artist, image_url, mid⟩
  | _ => none

def decodeMusicSource (j : Json) : Option MusicSource :=
  match j with
  | .obj _ => do
    let sid ← reqInt j "sid".data
    let name ← reqStr j "name".data
    let source_type ← reqStr j "type".data
    let image_url ← optStr j "image_url".data
    let available ← optStr j "available".data
    let service_username ← optStr j "service_username".data
    pure ⟨sid, name, source_type, image_url, available, service_username⟩
  | _ => none

def decodeBrowseItem (j : Json) : Option BrowseItem :=
  match j with
  | .obj _ => do
    let container ← optStr j "container".data
    let cid ← optStr j "cid".data
    let mid ← optStr j "mid".data
    let name ← reqStr j "name".data
    let item_type ← optStr j "type".data
    let image_url ← optStr j "image_url".data
    let playable ← optStr j "playable".data
    pure ⟨container, cid, mid, name, item_type, image_url, playable⟩
  | _ => none

/-- `get_payload_array::<T>`: the payload must be an array and every
element must deserialize. -/
def decodeArray (d : Json → Option α) : Json → Option (List α)
  | .arr xs => xs.mapM d
  | _ => none

-- ==================== src/heos/client.rs ====================

/-- Decoded events delivered to the reconciler (Codec A side). -/
inductive HeosEvent where
  | connected
  | disconnected
  | playersChanged (players : List Player)
  | playerStateChanged (pid : Int) (state : PlayState)
  | nowPlayingChanged (pid : Int)
  | volumeChanged (pid : Int) (level : Nat) (mute : MuteState)
  | playModeChanged (pid : Int) (repeat_mode : RepeatMode) (shuffle : ShuffleMode)
  | queueChanged (pid : Int)
  | error (msg : Str)
  | response (r : HeosResponse)

/-- `HeosClient::handle_event`: classify an envelope whose result flag
is absent against the fixed table of event names; `none` embeds the
silently-dropped unrecognized case. -/
def handleEvent (r : HeosResponse) : Option HeosEvent :=
  let command := r.heos.command
  let params := r.parseMessage
  let pidOf : Int := ((mapGet params "pid".data).bind parseI64).getD 0
  if command = "event/player_state_changed".data then
    let state := ((mapGet params "state".data).map PlayState.fromStr).getD .unknown
    some (.playerStateChanged pidOf state)
  else if command = "event/player_now_playing_changed".data then
    some (.nowPlayingChanged pidOf)
  else if command = "event/player_volume_changed".data then
    let level := ((mapGet params "level".data).bind parseU8).getD 0
    let mute := ((mapGet params "mute".data).map MuteState.fromStr).getD .off
    some (.volumeChanged pidOf level mute)
  else if command = "event/repeat_mode_changed".data
      ∨ command = "event/shuffle_mode_changed".data then
    let rm := ((mapGet params "repeat".data).map RepeatMode.fromStr).getD .off
    let sm := ((mapGet params "shuffle".data).map ShuffleMode.fromStr).getD .off
    some (.playModeChanged pidOf rm sm)
  else if command = "event/player_queue_changed".data then
    some (.queueChanged pidOf)
  else if command = "event/players_changed".data then
    some (.playersChanged [])
  else none

def HeosCommand.new (g c : Str) : HeosCommand := ⟨g, c, []⟩

def HeosCommand.param (cmd : HeosCommand) (k v : Str) : HeosCommand :=
  { cmd with params := cmd.params ++ [(k, v)] }

/-- Rust `i64::to_string`. -/
def intToStr (n : Int) : Str := (toString n).data

def getPlayStateCmd (pid : Int) : HeosCommand :=
  (HeosCommand.new "player".data "get_play_state".data).param "pid".data (intToStr pid)

def getNowPlayingMediaCmd (pid : Int) : HeosCommand :=
  (HeosCommand.new "player".data "get_now_playing_media".data).param "pid".data (intToStr pid)

def getVolumeCmd (pid : Int) : HeosCommand :=
  (HeosCommand.new "player".data "get_volume".data).param "pid".data (intToStr pid)

def getMuteCmd (pid : Int) : HeosCommand :=
  (HeosCommand.new "player".data "get_mute".data).param "pid".data (intToStr pid)

def getPlayModeCmd (pid : Int) : HeosCommand :=
  (HeosCommand.new "player".data "get_play_mode".data).param "pid".data (intToStr pid)

-- ==================== src/app.rs ====================

inductive View where
  | main
  | devices
  | queue
  | browse
  | inputs
  | surroundModes
  | soundSettings
  | help
deriving DecidableEq, Repr

inductive ConnectionState where
  | disconnected
  | discovering
  | connected
deriving DecidableEq, Repr

/-- AVR-specific state (`AvrState`). -/
structure AvrState where
  connected : Bool
  power : Bool
  master_volume : Nat
  muted : Bool
  surround_mode : Str
  input_source : Str
deriving DecidableEq, Repr

def AvrState.default : AvrState := ⟨false, false, 0, false, [], []⟩

/-- The application state (`App`).  The `Config` field is read-only in
every operation the claims touch and is omitted; the two connection
handles are embedded by their presence (`has_handle`,
`has_avr_handle`), since the handle itself is an opaque channel. -/
structure App where
  connection_state : ConnectionState
  current_view : View
  previous_view : View
  should_quit : Bool
  status_message : Option Str
  players : List Player
  current_player_idx : Nat
  player_state : PlayerState
  queue : List QueueItem
  queue_selected : Nat
  music_sources : List MusicSource
  browse_items : List BrowseItem
  browse_selected : Nat
  browse_stack : List (Int × Str)
  inputs : List MusicSource
  input_selected : Nat
  device_selected : Nat
  surround_selected : Nat
  sound_setting_selected : Nat
  has_handle : Bool
  has_avr_handle : Bool
  avr_state : AvrState
deriving DecidableEq

/-- `App::new` (connection handles absent). -/
def App.new : App where
  connection_state := .disconnected
  current_view := .main
  previous_view := .main
  should_quit := false
  status_message := none
  players := []
  current_player_idx := 0
  player_state := PlayerState.default
  queue := []
  queue_selected := 0
  music_sources := []
  browse_items := []
  browse_selected := 0
  browse_stack := []
  inputs := []
  input_selected := 0
  device_selected := 0
  surround_selected := 0
  sound_setting_selected := 0
  has_handle := false
  has_avr_handle := false
  avr_state := AvrState.default

def App.currentPlayer (app : App) : Option Player :=
  app.players.get? app.current_player_idx

def App.currentPid (app : App) : Option Int :=
  app.currentPlayer.map (fun p => p.pid)

def App.setStatus (app : App) (msg : Str) : App :=
  { app with status_message := some msg }

/-- `App::handle_response`: apply a command response to the unified
state.  A non-success response only surfaces the `text` field of its
message as a diagnostic; a success response dispatches on substrings
of the echoed command name. -/
def App.handleResponse (app : App) (r : HeosResponse) : App :=
  if ¬ r.isSuccess then
    let params := r.parseMessage
    match mapGet params "text".data with
    | some text => app.setStatus ("Error: ".data ++ text)
    | none => app
  else
    let cmd := r.heos.command
    if listContains cmd "get_players".data then
      match decodeArray decodePlayer r.payload with
      | some ps =>
        let app1 := { app with players := ps }
        if ¬ app1.players.isEmpty ∧ app1.player_state.player.isNone then
          match app1.players.head? with
          | some p =>
            { app1 with player_state := { app1.player_state with player := some p } }
          | none => app1
        else app1
      | none => app
    else if listContains cmd "get_play_state".data then
      match mapGet r.parseMessage "state".data with
      | some st =>
        { app with player_state :=
            { app.player_state with play_state := PlayState.fromStr st } }
      | none => app
    else if listContains cmd "get_now_playing_media".data then
      match decodeNowPlayingMedia r.payload with
      | some media =>
        { app with player_state := { app.player_state with now_playing := media } }
      | none => app
    else if listContains cmd "get_volume".data
        ∨ listContains cmd "volume_up".data
        ∨ listContains cmd "volume_down".data then
      match (mapGet r.parseMessage "level".data).bind parseU8 with
      | some level =>
        { app with player_state := { app.player_state with volume := level } }
      | none => app
    else if listContains cmd "get_mute".data
        ∨ listContains cmd "set_mute".data
        ∨ listContains cmd "toggle_mute".data then
      match mapGet r.parseMessage "state".data with
      | some st =>
        { app with player_state :=
            { app.player_state with mute := MuteState.fromStr st } }
      | none => app
    else if listContains cmd "get_play_mode".data
        ∨ listContains cmd "set_play_mode".data then
      let params := r.parseMessage
      let app1 := match mapGet params "repeat".data with
        | some rm =>
          { app with player_state :=
              { app.player_state with repeat_mode := RepeatMode.fromStr rm } }
        | none => app
      match mapGet params "shuffle".data with
      | some sm =>
        { app1 with player_state :=
            { app1.player_state with shuffle := ShuffleMode.fromStr sm } }
      | none => app1
    else if listContains cmd "get_queue".data then
      match decodeArray decodeQueueItem r.payload with
      | some q => { app with queue := q }
      | none => app
    else if listContains cmd "get_music_sources".data then
      match decodeArray decodeMusicSource r.payload with
      | some sources =>
        { app with
            music_sources := sources.filter (fun s => s.source_type ≠ "heos_server".data)
            inputs := sources.filter (fun s =>
              s.source_type = "heos_server".data ∨ listContains s.name "Input".data) }
      | none => app
    else if listContains cmd "browse".data then
      match decodeArray decodeBrowseItem r.payload with
      | some items => { app with browse_items := items, browse_selected := 0 }
      | none => app
    else app

/-- `App::handle_heos_event` (the reconciler for Codec A traffic). -/
def App.handleHeosEvent (app : App) (event : HeosEvent) : App :=
  match event with
  | .connected =>
    ({ app with connection_state := .connected }).setStatus
      "Connected to HEOS device".data
  | .disconnected =>
    ({ app with connection_state := .disconnected, has_handle := false }).setStatus
      "Disconnected from HEOS device".data
  | .playersChanged players =>
    if ¬ players.isEmpty then { app with players := players } else app
  | .playerStateChanged pid state =>
    if app.currentPid = some pid then
      { app with player_state := { app.player_state with play_state := state } }
    else app
  | .nowPlayingChanged pid =>
    -- the source's matching-pid arm has an empty body (refresh is the
    -- caller's job), so the state is unchanged either way
    if app.currentPid = some pid then app else app
  | .volumeChanged pid level mute =>
    if app.currentPid = some pid then
      { app with player_state :=
          { app.player_state with volume := level, mute := mute } }
    else app
  | .playModeChanged pid rm sm =>
    if app.currentPid = some pid then
      { app with player_state :=
          { app.player_state with repeat_mode := rm, shuffle := sm } }
    else app
  | .queueChanged _ => app
  | .error msg => app.setStatus ("Error: ".data ++ msg)
  | .response r => app.handleResponse r

/-- `App::handle_avr_event` (the reconciler for Codec B traffic). -/
def App.handleAvrEvent (app : App) (event : AvrEvent) : App :=
  match event with
  | .connected =>
    ({ app with avr_state := { app.avr_state with connected := true } }).setStatus
      "AVR control connected".data
  | .disconnected =>
    { app with
        avr_state := { app.avr_state with connected := false }
        has_avr_handle := false }
  | .masterVolume vol =>
    { app with avr_state := { app.avr_state with master_volume := vol } }
  | .mute m => { app with avr_state := { app.avr_state with muted := m } }
  | .power p => { app with avr_state := { app.avr_state with power := p } }
  | .surroundMode mode =>
    { app with avr_state := { app.avr_state with surround_mode := mode } }
  | .inputSource input =>
    { app with avr_state := { app.avr_state with input_source := input } }
  | .error msg => app.setStatus ("AVR Error: ".data ++ msg)
  | .response _ => app

/-- The five queries `App::refresh_player_state` submits when a
connection handle and an active player exist. -/
def App.refreshPlayerStateCmds (app : App) : List HeosCommand :=
  if app.has_handle then
    match app.currentPid with
    | some pid =>
      [getPlayStateCmd pid, getNowPlayingMediaCmd pid, getVolumeCmd pid,
       getMuteCmd pid, getPlayModeCmd pid]
    | none => []
  else []

/-- `App::select_player`: the resulting state paired with the commands
submitted to the connection.  The source returns `Ok` on both paths. -/
def App.selectPlayer (app : App) (idx : Nat) : App × List HeosCommand :=
  if idx < app.players.length then
    let app1 := { app with current_player_idx := idx, player_state := PlayerState.default }
    let app2 := match app1.players.get? idx with
      | some p =>
        { app1 with player_state := { app1.player_state with player := some p } }
      | none => app1
    (app2, app2.refreshPlayerStateCmds)
  else (app, [])

-- ==================== src/heos/discovery.rs ====================

structure DiscoveredDevice where
  ip : Str
  location : Str
  friendly_name : Option Str
deriving DecidableEq, Repr

/-- The `is_heos` acceptance test of `discover_devices`: the response
bytes mention a vendor/protocol keyword, case-insensitively for the
first three and case-sensitively for `ACT-Denon`. -/
def isHeosResponse (resp : Str) : Bool :=
  listContains (lowerStr resp) "heos".data
    || listContains (lowerStr resp) "denon".data
    || listContains (lowerStr resp) "marantz".data
    || listContains resp "ACT-Denon".data

def upperStr (s : Str) : Str := s.map Char.toUpper

/-- Rust `str::lines`: split on `'\n'`, drop a final empty piece, strip
one trailing `'\r'` per line. -/
def rustLines (s : Str) : List Str :=
  if s.isEmpty then []
  else
    let parts := splitOnChar '\n' s
    let parts := if parts.getLast? = some [] then parts.dropLast else parts
    parts.map (fun l => if l.getLast? = some '\r' then l.dropLast else l)

/-- `parse_header`: first line whose uppercasing starts with
`HEADER:`, taken after its first `':'` and trimmed. -/
def parseHeader (response header : Str) : Option Str :=
  match (rustLines response).find?
      (fun line => (upperStr header ++ [':']).isPrefixOf (upperStr line)) with
  | some line => (splitOnceChar ':' line).map (fun p => trimStr p.2)
  | none => none

/-- One iteration's outcome at the receive point of the discovery
loop: a datagram `(bytes, source ip)`, or a socket error / expired
deadline, either of which makes the loop break. -/
inductive RecvOutcome where
  | datagram (resp : Str) (ip : Str)
  | failure

/-- The body of the receive loop applied to one datagram. -/
def applyDatagram (devices : List DiscoveredDevice) (resp ip : Str) :
    List DiscoveredDevice :=
  if isHeosResponse resp then
    if ¬ devices.any (fun d => d.ip = ip) then
      devices ++ [⟨ip, (parseHeader resp "LOCATION".data).getD [], none⟩]
    else devices
  else devices

/-- The receive loop of `discover_devices`, from an intermediate
accumulator: consume datagrams until the sequence ends (deadline) or a
failure occurs, and return what was collected. -/
def discoverLoopFrom (devices : List DiscoveredDevice) :
    List RecvOutcome → List DiscoveredDevice
  | [] => devices
  | .failure :: _ => devices
  | .datagram resp ip :: rest => discoverLoopFrom (applyDatagram devices resp ip) rest

/-- `discover_devices` over the sequence of receive outcomes observed
before the wall-clock deadline (always `Ok` in the source once the
socket is bound). -/
def discoverDevices (rs : List RecvOutcome) : List DiscoveredDevice :=
  discoverLoopFrom [] rs

-- ==================== Codec A command-line decoding ====================

/-- Strip a trailing CRLF, failing when absent. -/
def dropCrlf (s : Str) : Option Str :=
  match s.reverse with
  | '\n' :: '\r' :: rest => some rest.reverse
  | _ => none

/-- Split every `k=v` chunk of a query at its first `'='`, failing on
a chunk with no `'='`. -/
def decodePairs : List Str → Option (List (Str × Str))
  | [] => some []
  | chunk :: rest => do
    let p ← splitOnceChar '=' chunk
    let ps ← decodePairs rest
    pure (p :: ps)

/-- Modelled from the spec: the repository has no decoder for encoded
Codec A command lines (only responses are parsed back), but §8 demands
that `decode(encode(cmd))` recover the namespace, action and ordered
parameters.  Following §4.3's encoding grammar: strip the line break,
require the `heos://` scheme, split namespace and action at the first
`'/'`, split off the query at the first `'?'`, split the query on
`'&'`, and split every `k=v` pair at its first `'='`. -/
def decodeCommandLine (line : Str) : Option HeosCommand := do
  let body ← dropCrlf line
  if "heos://".data.isPrefixOf body then do
    let (ns, rest2) ← splitOnceChar '/' (body.drop 7)
    match splitOnceChar '?' rest2 with
    | none => pure ⟨ns, rest2, []⟩
    | some (act, query) => do
      let params ← decodePairs (splitOnChar '&' query)
      pure ⟨ns, act, params⟩
  else none

/-- The device identifier carried by a decoded Codec A event, for the
five event kinds that name one. -/
def HeosEvent.eventPid : HeosEvent → Option Int
  | .playerStateChanged pid _ => some pid
  | .nowPlayingChanged pid => some pid
  | .volumeChanged pid _ _ => some pid
  | .playModeChanged pid _ _ => some pid
  | .queueChanged pid => some pid
  | _ => none

-- ==================== concrete fixtures ====================

/-- A sample roster entry (pid 1). -/
def samplePlayer : Player :=
  ⟨1, "Living Room".data, "HEOS 5".data, [], [], [], 0, []⟩

/-- An application state whose active player has pid 1. -/
def sampleApp : App := { App.new with players := [samplePlayer] }

/-- A successful `get_volume` response whose message names pid 2. -/
def foreignVolumeResp : HeosResponse :=
  ⟨⟨"player/get_volume".data, some "success".data, "pid=2&level=37".data⟩,
    .null, .null⟩

/-- A well-formed response whose result flag is a failure token. -/
def failedResp : HeosResponse :=
  ⟨⟨"player/set_volume".data, some "fail".data, "eid=9&text=out of range".data⟩,
    .null, .null⟩

/-- An SSDP reply naming a recognized vendor keyword. -/
def sampleSsdpResp : Str :=
  "HTTP/1.1 200 OK\r\nST: urn:schemas-denon-com:device:ACT-Denon:1\r\nLOCATION: http://10.0.0.7/upnp\r\n\r\n".data

-- ==================== helper lemmas ====================

theorem splitOnceChar_of_not_mem (c : Char) (xs : Str) (h : c ∉ xs) :
    splitOnceChar c xs = none := by
  induction xs with
  | nil => rfl
  | cons a t ih =>
    simp only [List.mem_cons, not_or] at h
    have hac : ¬ a = c := fun hh => h.1 hh.symm
    simp [splitOnceChar, hac, ih h.2]

theorem splitOnceChar_append (c : Char) (xs ys : Str) (h : c ∉ xs) :
    splitOnceChar c (xs ++ c :: ys) = some (xs, ys) := by
  induction xs with
  | nil => simp [splitOnceChar]
  | cons a t ih =>
    simp only [List.mem_cons, not_or] at h
    have hac : ¬ a = c := fun hh => h.1 hh.symm
    simp [splitOnceChar, hac, ih h.2]

theorem splitOnChar_of_not_mem (c : Char) (xs : Str) (h : c ∉ xs) :
    splitOnChar c xs = [xs] := by
  induction xs with
  | nil => rfl
  | cons a t ih =>
    simp only [List.mem_cons, not_or] at h
    have hac : ¬ a = c := fun hh => h.1 hh.symm
    simp [splitOnChar, hac, ih h.2]

theorem splitOnChar_append (c : Char) (xs ys : Str) (h : c ∉ xs) :
    splitOnChar c (xs ++ c :: ys) = xs :: splitOnChar c ys := by
  induction xs with
  | nil => simp [splitOnChar]
  | cons a t ih =>
    simp only [List.mem_cons, not_or] at h
    have hac : ¬ a = c := fun hh => h.1 hh.symm
    simp only [List.cons_append, splitOnChar, if_neg hac]
    rw [show t.append (c :: ys) = t ++ c :: ys from rfl, ih h.2]

theorem splitOnChar_joinPairs (ps : List (Str × Str)) (hne : ps ≠ [])
    (h : ∀ p ∈ ps, '&' ∉ p.1 ∧ '&' ∉ p.2) :
    splitOnChar '&' (joinPairs ps) = ps.map (fun p => p.1 ++ '=' :: p.2) := by
  induction ps with
  | nil => exact absurd rfl hne
  | cons p rest ih =>
    obtain ⟨k, v⟩ := p
    obtain ⟨hk, hv⟩ := h (k, v) (List.mem_cons_self _ _)
    cases rest with
    | nil =>
      have hno : '&' ∉ k ++ '=' :: v := by
        simp only [List.mem_append, List.mem_cons, not_or]
        exact ⟨hk, by decide, hv⟩
      simpa [joinPairs] using splitOnChar_of_not_mem '&' (k ++ '=' :: v) hno
    | cons q rest2 =>
      have hno : '&' ∉ k ++ '=' :: v := by
        simp only [List.mem_append, List.mem_cons, not_or]
        exact ⟨hk, by decide, hv⟩
      have hassoc : k ++ '=' :: (v ++ '&' :: joinPairs (q :: rest2))
          = (k ++ '=' :: v) ++ '&' :: joinPairs (q :: rest2) := by
        simp
      have := splitOnChar_append '&' (k ++ '=' :: v) (joinPairs (q :: rest2)) hno
      simp only [joinPairs, hassoc, this]
      rw [ih (by simp) (fun p hp => h p (List.mem_cons_of_mem _ hp))]
      simp

theorem decodePairs_of_join (ps : List (Str × Str)) (h : ∀ p ∈ ps, '=' ∉ p.1) :
    decodePairs (ps.map (fun p => p.1 ++ '=' :: p.2)) = some ps := by
  induction ps with
  | nil => rfl
  | cons p rest ih =>
    obtain ⟨k, v⟩ := p
    simp only [List.map_cons, decodePairs,
      splitOnceChar_append '=' k v (h (k, v) (List.mem_cons_self _ _)),
      ih (fun p hp => h p (List.mem_cons_of_mem _ hp))]
    rfl

theorem dropCrlf_append (xs : Str) : dropCrlf (xs ++ ['\r', '\n']) = some xs := by
  simp [dropCrlf, List.reverse_append]

theorem decode_toLine (g cmd : Str) (ps : List (Str × Str))
    (hg : '/' ∉ g) (ha : '?' ∉ cmd)
    (hp : ∀ p ∈ ps, '=' ∉ p.1 ∧ '&' ∉ p.1 ∧ '&' ∉ p.2) :
    decodeCommandLine (HeosCommand.mk g cmd ps).toLine = some ⟨g, cmd, ps⟩ := by
  have hpre : ∀ z : Str, "heos://".data.isPrefixOf ("heos://".data ++ z) = true := by
    intro z; rw [List.isPrefixOf_iff_prefix]; exact List.prefix_append _ _
  have hdrop : ∀ z : Str, ("heos://".data ++ z).drop 7 = z := by
    intro z
    rw [show (7 : Nat) = "heos://".data.length from rfl]
    exact List.drop_left _ _
  cases ps with
  | nil =>
    have hline : (HeosCommand.mk g cmd []).toLine
        = ("heos://".data ++ (g ++ '/' :: cmd)) ++ ['\r', '\n'] := by
      simp [HeosCommand.toLine, List.append_assoc,
        show "\r\n".data = ['\r', '\n'] from rfl]
    rw [hline]
    simp only [decodeCommandLine, dropCrlf_append, hpre, hdrop, if_true,
      Option.bind_eq_bind, Option.some_bind,
      splitOnceChar_append '/' g cmd hg,
      splitOnceChar_of_not_mem '?' cmd ha]
    rfl
  | cons p rest =>
    have hline : (HeosCommand.mk g cmd (p :: rest)).toLine
        = ("heos://".data ++ (g ++ '/' :: (cmd ++ '?' :: joinPairs (p :: rest))))
            ++ ['\r', '\n'] := by
      simp [HeosCommand.toLine, List.append_assoc,
        show "\r\n".data = ['\r', '\n'] from rfl]
    rw [hline]
    simp only [decodeCommandLine, dropCrlf_append, hpre, hdrop, if_true,
      Option.bind_eq_bind, Option.some_bind,
      splitOnceChar_append '/' g (cmd ++ '?' :: joinPairs (p :: rest)) hg,
      splitOnceChar_append '?' cmd (joinPairs (p :: rest)) ha,
      splitOnChar_joinPairs (p :: rest) (by simp)
        (fun q hq => ⟨(hp q hq).2.1, (hp q hq).2.2⟩),
      decodePairs_of_join (p :: rest) (fun q hq => (hp q hq).1)]
    rfl

theorem applyDatagram_subset (acc : List DiscoveredDevice) (resp ip : Str)
    (d : DiscoveredDevice) (hd : d ∈ applyDatagram acc resp ip) :
    d ∈ acc ∨ (isHeosResponse resp = true ∧ d.ip = ip) := by
  unfold applyDatagram at hd
  by_cases h1 : isHeosResponse resp = true
  · rw [if_pos h1] at hd
    by_cases h2 : ¬ acc.any (fun d => d.ip = ip) = true
    · rw [if_pos h2] at hd
      rcases List.mem_append.mp hd with h | h
      · exact .inl h
      · refine .inr ⟨h1, ?_⟩
        simp only [List.mem_singleton] at h
        rw [h]
    · rw [if_neg h2] at hd
      exact .inl hd
  · rw [if_neg h1] at hd
    exact .inl hd

theorem discoverLoopFrom_mem (rs : List RecvOutcome) :
    ∀ acc, ∀ d ∈ discoverLoopFrom acc rs,
      d ∈ acc ∨ ∃ resp ip, RecvOutcome.datagram resp ip ∈ rs
        ∧ isHeosResponse resp = true ∧ d.ip = ip := by
  induction rs with
  | nil => intro acc d hd; exact .inl (by simpa [discoverLoopFrom] using hd)
  | cons r rest ih =>
    intro acc d hd
    cases r with
    | failure => exact .inl (by simpa [discoverLoopFrom] using hd)
    | datagram resp ip =>
      simp only [discoverLoopFrom] at hd
      rcases ih _ d hd with h | ⟨resp2, ip2, hmem, hh, hip⟩
      · rcases applyDatagram_subset _ _ _ _ h with h2 | ⟨hh, hip⟩
        · exact .inl h2
        · exact .inr ⟨resp, ip, List.mem_cons_self _ _, hh, hip⟩
      · exact .inr ⟨resp2, ip2, List.mem_cons_of_mem _ hmem, hh, hip⟩

theorem applyDatagram_pairwise (acc : List DiscoveredDevice) (resp ip : Str)
    (h : acc.Pairwise (fun a b => a.ip ≠ b.ip)) :
    (applyDatagram acc resp ip).Pairwise (fun a b => a.ip ≠ b.ip) := by
  unfold applyDatagram
  by_cases h1 : isHeosResponse resp = true
  · rw [if_pos h1]
    by_cases h2 : ¬ acc.any (fun d => d.ip = ip) = true
    · rw [if_pos h2]
      rw [List.pairwise_append]
      refine ⟨h, List.pairwise_singleton _ _, ?_⟩
      intro a ha b hb
      simp only [List.mem_singleton] at hb
      subst hb
      intro hab
      apply h2
      rw [List.any_eq_true]
      exact ⟨a, ha, by simp [hab]⟩
    · rw [if_neg h2]; exact h
  · rw [if_neg h1]; exact h

theorem discoverLoopFrom_pairwise (rs : List RecvOutcome) :
    ∀ acc, acc.Pairwise (fun a b => a.ip ≠ b.ip) →
      (discoverLoopFrom acc rs).Pairwise (fun a b => a.ip ≠ b.ip) := by
  induction rs with
  | nil => intro acc h; simpa [discoverLoopFrom]
  | cons r rest ih =>
    intro acc h
    cases r with
    | failure => simpa [discoverLoopFrom]
    | datagram resp ip =>
      simp only [discoverLoopFrom]
      exact ih _ (applyDatagram_pairwise _ _ _ h)

theorem discoverLoopFrom_failure (pre post : List RecvOutcome) :
    ∀ acc, discoverLoopFrom acc (pre ++ .failure :: post) = discoverLoopFrom acc pre := by
  induction pre with
  | nil => intro acc; rfl
  | cons r rest ih =>
    intro acc
    cases r with
    | failure => rfl
    | datagram resp ip =>
      simp only [List.cons_append, discoverLoopFrom]
      exact ih _

-- ==================== claims ====================

/-- C1 (amended): for every decoded Codec A event that carries a
device identifier, the reconciler mutates state only when that pid
equals the active player's pid — a mismatched event leaves the entire
application state unchanged.  Command responses, by contrast, are
applied without any pid comparison (see the counterexample). -/
theorem heos_event_pid_gate_full_state (app : App) (ev : HeosEvent) (pid : Int)
    (hpid : ev.eventPid = some pid) (hne : app.currentPid ≠ some pid) :
    app.handleHeosEvent ev = app := by
  cases ev with
  | playerStateChanged p st =>
    injection hpid with h; subst h
    simp only [App.handleHeosEvent, if_neg hne]
  | nowPlayingChanged p => simp [App.handleHeosEvent]
  | volumeChanged p lv m =>
    injection hpid with h; subst h
    simp only [App.handleHeosEvent, if_neg hne]
  | playModeChanged p rm sm =>
    injection hpid with h; subst h
    simp only [App.handleHeosEvent, if_neg hne]
  | queueChanged p => simp [App.handleHeosEvent]
  | connected => simp [HeosEvent.eventPid] at hpid
  | disconnected => simp [HeosEvent.eventPid] at hpid
  | playersChanged ps => simp [HeosEvent.eventPid] at hpid
  | error msg => simp [HeosEvent.eventPid] at hpid
  | response r => simp [HeosEvent.eventPid] at hpid

/-- C1 witness: a state-changed event for pid 2 leaves an application
whose active player has pid 1 untouched. -/
theorem heos_event_pid_gate_full_state_witness :
    sampleApp.handleHeosEvent (.playerStateChanged 2 PlayState.play) = sampleApp :=
  heos_event_pid_gate_full_state sampleApp _ 2 rfl (by decide)

/-- C1 counterexample: a successful `get_volume` response whose
message names pid 2 mutates the volume of an application whose active
player has pid 1 — command responses are not pid-gated. -/
theorem response_pid_ignored_counterexample :
    sampleApp.currentPid = some 1
      ∧ mapGet (parseMessageString foreignVolumeResp.heos.message) "pid".data
          = some "2".data
      ∧ sampleApp.player_state.volume = 0
      ∧ (sampleApp.handleHeosEvent (.response foreignVolumeResp)).player_state.volume
          = 37 := by decide

/-- C2: the AVR master-volume decoder first parses the whole suffix as
a `u8`, so the 3-digit half-step reply `MV105` (meaning 10.5) yields
level 105 instead of the first-two-digit value 10 required by the
spec (and by the decoder's own 0–98 contract); `MV455` overflows `u8`
and is handled per the spec rule; the 1-digit `MV5` is emitted rather
than dropped. -/
theorem avr_volume_suffix_divergence :
    avrHandleResponse "MV105".data = some (AvrEvent.masterVolume 105)
      ∧ avrHandleResponse "MV455".data = some (AvrEvent.masterVolume 45)
      ∧ avrHandleResponse "MV5".data = some (AvrEvent.masterVolume 5) := by decide

/-- C3: each of the five decoded Codec A events that carry a pid
(player-state, now-playing, volume, play-mode, queue) leaves the
unified player state unchanged when that pid is not the active
player's. -/
theorem mismatched_event_preserves_player_state (app : App) (ev : HeosEvent) (pid : Int)
    (hpid : ev.eventPid = some pid) (hne : app.currentPid ≠ some pid) :
    (app.handleHeosEvent ev).player_state = app.player_state := by
  cases ev with
  | playerStateChanged p st =>
    injection hpid with h; subst h
    simp only [App.handleHeosEvent, if_neg hne]
  | nowPlayingChanged p => simp [App.handleHeosEvent]
  | volumeChanged p lv m =>
    injection hpid with h; subst h
    simp only [App.handleHeosEvent, if_neg hne]
  | playModeChanged p rm sm =>
    injection hpid with h; subst h
    simp only [App.handleHeosEvent, if_neg hne]
  | queueChanged p => simp [App.handleHeosEvent]
  | connected => simp [HeosEvent.eventPid] at hpid
  | disconnected => simp [HeosEvent.eventPid] at hpid
  | playersChanged ps => simp [HeosEvent.eventPid] at hpid
  | error msg => simp [HeosEvent.eventPid] at hpid
  | response r => simp [HeosEvent.eventPid] at hpid

/-- C3 witness: a volume-changed event for pid 2 leaves the player
state of an application whose active player has pid 1 unchanged. -/
theorem mismatched_event_preserves_player_state_witness :
    (sampleApp.handleHeosEvent (.volumeChanged 2 50 MuteState.on)).player_state
      = sampleApp.player_state :=
  mismatched_event_preserves_player_state sampleApp _ 2 rfl (by decide)

/-- C4: a well-formed command response whose result flag is present
but not `success` can change nothing but the status-message slot: the
resulting state equals the input state with only `status_message`
replaced. -/
theorem failed_response_touches_only_status (app : App) (r : HeosResponse) (res : Str)
    (hres : r.heos.result = some res) (hne : res ≠ "success".data) :
    app.handleResponse r
      = { app with status_message := (app.handleResponse r).status_message } := by
  have hfail : r.isSuccess = false := by
    simp only [HeosResponse.isSuccess, hres, decide_eq_false_iff_not]
    simp [hne]
  simp only [App.handleResponse, HeosResponse.parseMessage, hfail]
  cases hm : mapGet (parseMessageString r.heos.message) "text".data with
  | none => simp [hm]
  | some text => simp [hm, App.setStatus]

/-- C4 witness: a failing `set_volume` response only (re)writes the
status message of the sample application. -/
theorem failed_response_touches_only_status_witness :
    sampleApp.handleResponse failedResp
      = { sampleApp with
            status_message := (sampleApp.handleResponse failedResp).status_message } :=
  failed_response_touches_only_status sampleApp failedResp "fail".data rfl (by decide)

/-- C5 counterexample: two distinct parameter lists encode to the very
same line (a `&`/`=` pair inside a value collides with a second
parameter), so no decoder can recover the original ordered parameters
of every command, refuting the claim as stated. -/
theorem command_encoding_collision :
    (HeosCommand.mk "player".data "cmd".data
        [("k".data, "a&b=c".data)]).toLine
      = (HeosCommand.mk "player".data "cmd".data
          [("k".data, "a".data), ("b".data, "c".data)]).toLine
      ∧ HeosCommand.mk "player".data "cmd".data [("k".data, "a&b=c".data)]
          ≠ HeosCommand.mk "player".data "cmd".data
              [("k".data, "a".data), ("b".data, "c".data)] := by decide

/-- C5 (amended): for every command whose namespace contains no `'/'`,
whose action contains no `'?'`, and whose parameter keys contain no
`'='` or `'&'` and values no `'&'` (true of every command the source
constructs), decoding the encoded line recovers the namespace, action
and ordered parameter list. -/
theorem command_encode_decode_roundtrip (c : HeosCommand)
    (hg : '/' ∉ c.group) (ha : '?' ∉ c.command)
    (hp : ∀ p ∈ c.params, '=' ∉ p.1 ∧ '&' ∉ p.1 ∧ '&' ∉ p.2) :
    decodeCommandLine c.toLine = some c := by
  obtain ⟨g, cmd, ps⟩ := c
  exact decode_toLine g cmd ps hg ha hp

/-- C5 witness: the encoded `get_volume(pid=1)` command decodes back
to itself. -/
theorem command_encode_decode_roundtrip_witness :
    decodeCommandLine (getVolumeCmd 1).toLine = some (getVolumeCmd 1) :=
  command_encode_decode_roundtrip (getVolumeCmd 1) (by decide) (by decide) (by decide)

/-- C6: selecting an in-range roster index makes it the active index,
resets the unified player state to defaults except for the newly
selected player's identity, and leaves the roster unchanged. -/
theorem select_player_resets_state (app : App) (idx : Nat)
    (h : idx < app.players.length) :
    (app.selectPlayer idx).1.current_player_idx = idx
      ∧ (app.selectPlayer idx).1.player_state
          = { PlayerState.default with player := app.players.get? idx }
      ∧ (app.selectPlayer idx).1.players = app.players := by
  have hsome : app.players.get? idx = some (app.players.get ⟨idx, h⟩) :=
    List.get?_eq_get h
  simp only [App.selectPlayer, if_pos h, hsome]
  simp

/-- C6 witness: selecting index 0 of the sample roster. -/
theorem select_player_resets_state_witness :
    (sampleApp.selectPlayer 0).1.current_player_idx = 0
      ∧ (sampleApp.selectPlayer 0).1.player_state
          = { PlayerState.default with player := sampleApp.players.get? 0 }
      ∧ (sampleApp.selectPlayer 0).1.players = sampleApp.players :=
  select_player_resets_state sampleApp 0 (by decide)

/-- C7: a parsed Codec A line is an event exactly when its result flag
is absent, and a success exactly when the flag holds the literal
`success` token. -/
theorem event_and_success_classification (r : HeosResponse) :
    (r.isEvent = true ↔ r.heos.result = none)
      ∧ (r.isSuccess = true ↔ r.heos.result = some "success".data) := by
  constructor
  · simp [HeosResponse.isEvent, Option.isNone_iff_eq_none]
  · simp [HeosResponse.isSuccess]

/-- C8: discovery is best-effort — every collected candidate stems
from a received datagram that passed the vendor-keyword test, no two
candidates share a source IP, and a socket failure mid-loop simply
truncates: the candidates collected before it are returned. -/
theorem discovery_collects_dedup_vendor_matches (rs pre post : List RecvOutcome) :
    (discoverDevices rs).Pairwise (fun a b => a.ip ≠ b.ip)
      ∧ (∀ d ∈ discoverDevices rs, ∃ resp ip,
          RecvOutcome.datagram resp ip ∈ rs
            ∧ isHeosResponse resp = true ∧ d.ip = ip)
      ∧ discoverDevices (pre ++ RecvOutcome.failure :: post) = discoverDevices pre := by
  refine ⟨discoverLoopFrom_pairwise rs [] List.Pairwise.nil, ?_,
    discoverLoopFrom_failure pre post []⟩
  intro d hd
  rcases discoverLoopFrom_mem rs [] d hd with h | h
  · cases h
  · exact h

/-- C8 witness: a failure outcome after one vendor datagram returns
exactly what was collected before it. -/
theorem discovery_collects_dedup_vendor_matches_witness :
    discoverDevices ([RecvOutcome.datagram sampleSsdpResp "10.0.0.7".data]
        ++ RecvOutcome.failure
          :: [RecvOutcome.datagram sampleSsdpResp "10.0.0.8".data])
      = discoverDevices [RecvOutcome.datagram sampleSsdpResp "10.0.0.7".data] :=
  (discovery_collects_dedup_vendor_matches [] _ _).2.2

/-- C9: every trimmed AVR line beginning with `MVMAX` is forwarded as
an opaque raw response event, never parsed as a volume level and never
dropped. -/
theorem mvmax_forwarded_as_raw_response (rest : Str) :
    avrHandleResponse ('M' :: 'V' :: 'M' :: 'A' :: 'X' :: rest)
      = some (AvrEvent.response ('M' :: 'V' :: 'M' :: 'A' :: 'X' :: rest)) := by
  have h5 : "MVMAX".data.isPrefixOf ('M' :: 'V' :: 'M' :: 'A' :: 'X' :: rest) = true := by
    simp [List.isPrefixOf]
  have hmu : "MU".data.isPrefixOf ('M' :: 'V' :: 'M' :: 'A' :: 'X' :: rest) = false := by
    simp [List.isPrefixOf]
  have hpw : "PW".data.isPrefixOf ('M' :: 'V' :: 'M' :: 'A' :: 'X' :: rest) = false := by
    simp [List.isPrefixOf]
  have hsi : "SI".data.isPrefixOf ('M' :: 'V' :: 'M' :: 'A' :: 'X' :: rest) = false := by
    simp [List.isPrefixOf]
  have hms : "MS".data.isPrefixOf ('M' :: 'V' :: 'M' :: 'A' :: 'X' :: rest) = false := by
    simp [List.isPrefixOf]
  simp [avrHandleResponse, h5, hmu, hpw, hsi, hms]

/-- C10: selecting an out-of-range roster index is a no-op: the state
is returned unchanged (the source returns `Ok`) and no command is
submitted. -/
theorem select_player_out_of_range_noop (app : App) (idx : Nat)
    (h : app.players.length ≤ idx) :
    app.selectPlayer idx = (app, []) := by
  simp only [App.selectPlayer, if_neg (by omega : ¬ idx < app.players.length)]

/-- C10 witness: selecting index 5 of an empty roster. -/
theorem select_player_out_of_range_noop_witness :
    App.new.selectPlayer 5 = (App.new, []) :=
  select_player_out_of_range_noop App.new 5 (by decide)

end HeosTui
